import Mathlib

/-!
Shallow embedding of the concurrency-core primitives of this repository:
the dual reference counter (src/core/util/dual_ref_counted.h), the
initiator-side pump of ForwardCall (src/core/call/call_spine.cc), and
spec-modelled fragments of Party/PartySync whose implementation is not
vendored here and is pinned by test/core/promise/party_test.cc.  Machine
words are Nat with explicit reduction modulo 2^32 / 2^64 where the C++
uint32_t / uint64_t arithmetic wraps.
-/

namespace GrpcVerify

/-- 2^32, one past the largest uint32_t value. -/
def two32 : Nat := 2 ^ 32

/-- 2^64, one past the largest value of the packed 64-bit ref-pair word. -/
def two64 : Nat := 2 ^ 64

/-- dual_ref_counted.h MakeRefPair (lines 333-335): first 32 bits are the
strong refs, next 32 bits the weak refs.  The arguments are uint32_t, so
callers passing wider or negative values get them truncated mod 2^32. -/
def MakeRefPair (strong weak : Nat) : Nat :=
  (strong % two32) * two32 + weak % two32

/-- dual_ref_counted.h GetStrongRefs (lines 336-338):
static_cast to uint32_t of (ref_pair >> 32). -/
def GetStrongRefs (ref_pair : Nat) : Nat := ref_pair / two32 % two32

/-- dual_ref_counted.h GetWeakRefs (lines 339-341):
static_cast to uint32_t of (ref_pair & 0xffffffff). -/
def GetWeakRefs (ref_pair : Nat) : Nat := ref_pair % two32

/-- Ghost log entries for the externally observable lifecycle callbacks:
the virtual Orphaned() call and the unref_behavior_ (destroy) call. -/
inductive DrcEvent
  | orphaned
  | destroyed
deriving DecidableEq

/-- State of a DualRefCounted object: the packed 64-bit atomic refs_ and
the chronological log of Orphaned()/unref_behavior_ invocations. -/
structure DualRefCounted where
  refs : Nat
  events : List DrcEvent
deriving DecidableEq

/-- The int32_t → uint32_t implicit conversion applied to the
constructor argument when it is handed to MakeRefPair. -/
def u32OfInt (n : Int) : Nat := (n % (two32 : Int)).toNat

/-- DualRefCounted constructor (dual_ref_counted.h lines 298-311):
initializes refs_ to MakeRefPair(initial_refcount, 0); initial_refcount
is an int32_t whose default value is 1. -/
def mkDualRefCounted (initial_refcount : Int) : DualRefCounted :=
  { refs := MakeRefPair (u32OfInt initial_refcount) 0, events := [] }

/-- The constructor applied to its default argument (initial_refcount = 1). -/
def mkDualRefCountedDefault : DualRefCounted := mkDualRefCounted 1

namespace DualRefCounted

/-- IncrementRefCount (lines 343-357): refs_.fetch_add(MakeRefPair(1, 0)),
wrapping at 2^64 as the uint64_t atomic does. -/
def IncrementRefCount (st : DualRefCounted) : DualRefCounted :=
  { st with refs := (st.refs + MakeRefPair 1 0) % two64 }

/-- IncrementWeakRefCount (lines 379-393): refs_.fetch_add(MakeRefPair(0, 1)). -/
def IncrementWeakRefCount (st : DualRefCounted) : DualRefCounted :=
  { st with refs := (st.refs + MakeRefPair 0 1) % two64 }

/-- WeakUnref (lines 203-224): prev = refs_.fetch_sub(MakeRefPair(0, 1));
the destroy behavior unref_behavior_ runs iff prev == MakeRefPair(0, 1).
fetch_sub on a uint64_t wraps, written (x + 2^64 - 1) % 2^64. -/
def WeakUnref (st : DualRefCounted) : DualRefCounted :=
  if st.refs = MakeRefPair 0 1 then
    { refs := (st.refs + two64 - MakeRefPair 0 1) % two64,
      events := st.events ++ [DrcEvent.destroyed] }
  else
    { refs := (st.refs + two64 - MakeRefPair 0 1) % two64,
      events := st.events }

/-- The fused update at the head of Unref (lines 88-103):
prev = refs_.fetch_add(MakeRefPair(-1, 1)) — the uint32_t cast of -1 is
2^32 - 1 — followed by the call to Orphaned() iff the strong count
observed in prev was exactly 1. -/
def unrefConvertStep (st : DualRefCounted) : DualRefCounted :=
  if GetStrongRefs st.refs = 1 then
    { refs := (st.refs + MakeRefPair (two32 - 1) 1) % two64,
      events := st.events ++ [DrcEvent.orphaned] }
  else
    { refs := (st.refs + MakeRefPair (two32 - 1) 1) % two64,
      events := st.events }

/-- Unref (lines 87-106): the fused strong-to-weak conversion (with the
conditional Orphaned() call) followed by exactly one WeakUnref(). -/
def Unref (st : DualRefCounted) : DualRefCounted :=
  WeakUnref (unrefConvertStep st)

/-- RefIfNonZero (lines 132-149), sequentialised: the compare-exchange
loop succeeds on its first attempt when no other thread interferes, so
the operation returns nullptr (here: none) iff the loaded strong count
is zero, and otherwise adds MakeRefPair(1, 0) and returns a handle. -/
def RefIfNonZero (st : DualRefCounted) : Option Unit × DualRefCounted :=
  if GetStrongRefs st.refs = 0 then (none, st)
  else (some (), { st with refs := (st.refs + MakeRefPair 1 0) % two64 })

end DualRefCounted

/-- The four public mutating operations quantified over in claim C1. -/
inductive DrcOp
  | ref
  | unref
  | weakRef
  | weakUnref
deriving DecidableEq

/-- One operation applied to the object state. -/
def applyOp (st : DualRefCounted) : DrcOp → DualRefCounted
  | DrcOp.ref => st.IncrementRefCount
  | DrcOp.unref => st.Unref
  | DrcOp.weakRef => st.IncrementWeakRefCount
  | DrcOp.weakUnref => st.WeakUnref

/-- A finite sequence of operations applied left to right. -/
def runOps (st : DualRefCounted) : List DrcOp → DualRefCounted
  | [] => st
  | op :: rest => runOps (applyOp st op) rest

/-- Number of strong and weak handles held by clients after an operation,
starting from (us, uw) held handles. -/
def userAfter (us uw : Nat) : DrcOp → Nat × Nat
  | DrcOp.ref => (us + 1, uw)
  | DrcOp.unref => (us - 1, uw)
  | DrcOp.weakRef => (us, uw + 1)
  | DrcOp.weakUnref => (us, uw - 1)

/-- Precondition of one operation given the client-held handle counts:
the debug-checked usage contract of dual_ref_counted.h (Ref requires a
live strong handle, WeakRef a live handle of either kind, and each
decrement a matching previously obtained handle) together with the
uint32_t range bound that keeps the two packed counters from wrapping
(the weak counter transiently reaches uw + 1 inside Unref). -/
def opValid (us uw : Nat) : DrcOp → Bool
  | DrcOp.ref => decide (1 ≤ us) && decide (us + 1 < two32)
  | DrcOp.unref => decide (1 ≤ us)
  | DrcOp.weakRef => decide (1 ≤ us + uw) && decide (uw + 2 < two32)
  | DrcOp.weakUnref => decide (1 ≤ uw)

/-- Validity of a whole sequence starting from (us, uw) held handles. -/
def validOps (us uw : Nat) : List DrcOp → Bool
  | [] => true
  | op :: rest =>
    opValid us uw op &&
      validOps (userAfter us uw op).1 (userAfter us uw op).2 rest

/-- Client-held handle counts after a whole sequence. -/
def userFinal (us uw : Nat) : List DrcOp → Nat × Nat
  | [] => (us, uw)
  | op :: rest => userFinal (userAfter us uw op).1 (userAfter us uw op).2 rest

/-- The lifecycle log forced by the client-held handle counts: no events
while a strong handle lives, exactly one orphan once the strong count has
hit zero, and orphan followed by destroy once both counts are zero. -/
def eventsFor (us uw : Nat) : List DrcEvent :=
  if 1 ≤ us then []
  else if 1 ≤ uw then [DrcEvent.orphaned]
  else [DrcEvent.orphaned, DrcEvent.destroyed]

/-- Coupling invariant between the client-held handle counts and the
object state: the packed word is exactly (us, uw) and the event log is
the one forced by the counts. -/
def stateOk (us uw : Nat) (st : DualRefCounted) : Prop :=
  us < two32 ∧ uw + 1 < two32 ∧ st.refs = MakeRefPair us uw ∧
    st.events = eventsFor us uw

/-- Modelled from the spec: the Waker of the Party implementation
(src/core/lib/promise/party.h and party.cc are not under src/; only
test/core/promise/party_test.cc is).  A waker holds a (slot, generation)
target while armed (§3: a (Party-weak-ref, slot-id, generation) triple);
Wakeup() consumes the waker, and a wake aimed at a dead participant —
orphaned Party or advanced generation — is a silent no-op after which
is_unwakeable() reports true (§7 error table, §8 scenario "non-owning
waker after orphan"). -/
structure Waker where
  target : Option (Nat × Nat)
deriving DecidableEq

/-- Modelled from the spec: the Party state a waker interacts with —
whether the Party has been orphaned, its current generation, and a ghost
log of the wakeups that actually took effect. -/
structure PartyModel where
  isOrphaned : Bool
  generation : Nat
  effectiveWakeups : List Nat
deriving DecidableEq

/-- Modelled from the spec: is_unwakeable() reports whether the waker
still holds a wakeup target (§7: it reports true after a wake of a dead
participant; §8 scenario: it is false after orphaning until Wakeup). -/
def Waker.is_unwakeable (w : Waker) : Bool := w.target.isNone

/-- Modelled from the spec: Wakeup() consumes the waker; the wakeup takes
effect only if the Party is live and the waker's generation is current
(§3, §7: a wake of a dead participant is a silent no-op). -/
def Waker.wakeup (w : Waker) (p : PartyModel) : Waker × PartyModel :=
  match w.target with
  | none => (w, p)
  | some (slot, gen) =>
    (⟨none⟩,
      if p.isOrphaned || decide (gen < p.generation) then p
      else { p with effectiveWakeups := p.effectiveWakeups ++ [slot] })

/-- A Party that has just been orphaned (§8 scenario: the last strong ref
was dropped after the participant captured a non-owning waker). -/
def orphanedParty : PartyModel :=
  { isOrphaned := true, generation := 1, effectiveWakeups := [] }

/-- The non-owning waker captured by the participant before orphaning. -/
def capturedWaker : Waker := { target := some (0, 0) }

namespace PartySync

/-- Modelled from the spec: kMaxParticipants, the compile-time participant
slot bound of PartySync (§3: at most 64; §9: choose 16 or 64). -/
def kMaxParticipants : Nat := 16

/-- Modelled from the spec: the PartySync fields slot allocation touches —
the per-slot allocated bits, the sync refcount and the wakeup bits (§3,
party state word). -/
structure SyncState where
  allocated : List Bool
  refCount : Nat
  wakeups : List Nat
deriving DecidableEq

/-- Currently free slot indices, in ascending order. -/
def freeSlots (allocated : List Bool) : List Nat :=
  (List.range kMaxParticipants).filter (fun i => !(allocated.getD i true))

/-- Modelled from the spec: AddParticipantsAndRef(n, assign_fn) (§4.2)
atomically reserves n free slots, invokes assign_fn on the reserved
indices, increments the refcount by one and sets the wakeup bits of the
reserved slots; it fails only if fewer than n slots are free. -/
def AddParticipantsAndRef (st : SyncState) (n : Nat) :
    Option (List Nat × SyncState) :=
  if n ≤ (freeSlots st.allocated).length then
    some ((freeSlots st.allocated).take n,
      { allocated :=
          (List.range kMaxParticipants).map
            (fun i =>
              st.allocated.getD i true ||
                ((freeSlots st.allocated).take n).contains i),
        refCount := st.refCount + 1,
        wakeups := st.wakeups ++ (freeSlots st.allocated).take n })
  else none

/-- An empty sync: all slots free, one initial ref, no pending wakeups. -/
def emptySync : SyncState :=
  { allocated := List.replicate kMaxParticipants false,
    refCount := 1, wakeups := [] }

/-- The sync produced by AddParticipantsAndRef(emptySync, 2). -/
def syncAfterTwo : SyncState :=
  { allocated := [true, true] ++ List.replicate 14 false,
    refCount := 2, wakeups := [0, 1] }

end PartySync

namespace CallSpine

/-- Events produced toward the handler side (plus the observer
invocation) by the initiator-side pump of ForwardCall, in chronological
order.  Metadata and message payloads are abstracted to Nat. -/
inductive HandlerEvent
  | pushServerInitialMetadata
  | pushMessage (payload : Nat)
  | observeTrailingMetadata (md : Nat)
  | pushServerTrailingMetadata (md : Nat)
deriving DecidableEq

/-- Recognizer for the server-initial-metadata push. -/
def isPushInitialMetadata : HandlerEvent → Bool
  | HandlerEvent.pushServerInitialMetadata => true
  | _ => false

/-- Recognizer for a server message push. -/
def isPushMessage : HandlerEvent → Bool
  | HandlerEvent.pushMessage _ => true
  | _ => false

/-- Recognizer for the trailing-metadata observer invocation. -/
def isObserveTrailing : HandlerEvent → Bool
  | HandlerEvent.observeTrailingMetadata _ => true
  | _ => false

/-- Recognizer for the server-trailing-metadata push. -/
def isPushTrailing : HandlerEvent → Bool
  | HandlerEvent.pushServerTrailingMetadata _ => true
  | _ => false

/-- Result of a fallible pull (one TrySeq step in call_spine.cc). -/
inductive Pulled (α : Type)
  | ok (value : α)
  | failed
deriving DecidableEq

/-- What the initiator-side pulls of one ForwardCall yield:
PullServerInitialMetadata may fail, yield an empty optional, or yield
metadata; MessagesFrom(call_initiator) yields a finite list of messages
and then either closes cleanly or fails; PullServerTrailingMetadata
always resolves — after a cancellation it yields the cancellation
metadata (§4.4, §7), which is the value recorded here.  The combinators
Seq, TrySeq, If, ForEach and CancelIfFails are not under src/ and are
modelled from the spec (§9) as sequential composition; a failure of the
guarded TrySeq cancels the initiator but the outer Seq still proceeds to
the trailing-metadata pull, so messagesClosedOk does not change which
events are produced. -/
structure InitiatorSource where
  serverInitialMetadata : Pulled (Option Unit)
  messages : List Nat
  messagesClosedOk : Bool
  trailingMetadata : Nat
deriving DecidableEq

/-- Shallow embedding of the read_the_things participant that ForwardCall
spawns on the initiator (call_spine.cc lines 43-77): TrySeq pulls
server-initial-metadata; If it is present it is pushed to the handler and
ForEach pumps every server message to the handler; if it is absent (or
the pull failed) the message pump is skipped; then, on success or
failure alike (CancelIfFails inside an outer Seq), the
server-trailing-metadata is pulled, handed to
on_server_trailing_metadata_from_initiator, and pushed to the handler. -/
def forwardCallInitiatorEvents (src : InitiatorSource) : List HandlerEvent :=
  (match src.serverInitialMetadata with
    | Pulled.failed => []
    | Pulled.ok none => []
    | Pulled.ok (some _) =>
      HandlerEvent.pushServerInitialMetadata ::
        src.messages.map HandlerEvent.pushMessage) ++
    [HandlerEvent.observeTrailingMetadata src.trailingMetadata,
     HandlerEvent.pushServerTrailingMetadata src.trailingMetadata]

/-- All P-events precede all Q-events in the list l. -/
def eventsPrecede (P Q : HandlerEvent → Bool) (l : List HandlerEvent) : Prop :=
  ∀ (i j : Nat) (hi : i < l.length) (hj : j < l.length),
    P (l.get ⟨i, hi⟩) = true → Q (l.get ⟨j, hj⟩) = true → i < j

/-- A concrete happy-path source: initial metadata present, one message
with payload 5, clean close, trailing metadata 9. -/
def sampleSource : InitiatorSource :=
  { serverInitialMetadata := Pulled.ok (some ()),
    messages := [5], messagesClosedOk := true, trailingMetadata := 9 }

end CallSpine

/-! Arithmetic facts about the packed 64-bit ref-pair word. -/

theorem two32_val : two32 = 4294967296 := by norm_num [two32]

theorem two64_val : two64 = 18446744073709551616 := by norm_num [two64]

theorem MakeRefPair_eq_of_lt (s w : Nat) (hs : s < two32) (hw : w < two32) :
    MakeRefPair s w = s * two32 + w := by
  unfold MakeRefPair
  rw [Nat.mod_eq_of_lt hs, Nat.mod_eq_of_lt hw]

theorem pair_lt_two64 (s w : Nat) (hs : s < two32) (hw : w < two32) :
    s * two32 + w < two64 := by
  rw [two32_val] at hs hw
  rw [two32_val, two64_val]
  omega

theorem GetStrongRefs_pair (s w : Nat) (hs : s < two32) (hw : w < two32) :
    GetStrongRefs (MakeRefPair s w) = s := by
  rw [MakeRefPair_eq_of_lt s w hs hw]
  unfold GetStrongRefs
  rw [Nat.mul_comm s two32, Nat.mul_add_div (by rw [two32_val]; omega) s w,
    Nat.div_eq_of_lt hw, Nat.add_zero, Nat.mod_eq_of_lt hs]

theorem GetWeakRefs_pair (s w : Nat) (hs : s < two32) (hw : w < two32) :
    GetWeakRefs (MakeRefPair s w) = w := by
  rw [MakeRefPair_eq_of_lt s w hs hw]
  unfold GetWeakRefs
  rw [Nat.mul_add_mod' s two32 w, Nat.mod_eq_of_lt hw]

theorem MakeRefPair_one_zero : MakeRefPair 1 0 = two32 := by
  norm_num [MakeRefPair, two32]

theorem MakeRefPair_zero_one : MakeRefPair 0 1 = 1 := by
  norm_num [MakeRefPair, two32]

theorem refPair_add_strong (s w : Nat) (hs : s + 1 < two32) (hw : w < two32) :
    (MakeRefPair s w + MakeRefPair 1 0) % two64 = MakeRefPair (s + 1) w := by
  rw [MakeRefPair_eq_of_lt s w (by omega) hw, MakeRefPair_one_zero,
    MakeRefPair_eq_of_lt (s + 1) w hs hw]
  have h : s * two32 + w + two32 = (s + 1) * two32 + w := by ring
  rw [h]
  exact Nat.mod_eq_of_lt (pair_lt_two64 (s + 1) w hs hw)

theorem refPair_add_weak (s w : Nat) (hs : s < two32) (hw : w + 1 < two32) :
    (MakeRefPair s w + MakeRefPair 0 1) % two64 = MakeRefPair s (w + 1) := by
  rw [MakeRefPair_eq_of_lt s w hs (by omega), MakeRefPair_zero_one,
    MakeRefPair_eq_of_lt s (w + 1) hs hw, Nat.add_assoc]
  exact Nat.mod_eq_of_lt (pair_lt_two64 s (w + 1) hs hw)

theorem refPair_unref_step (s w : Nat) (h1 : 1 ≤ s) (hs : s < two32)
    (hw : w + 1 < two32) :
    (MakeRefPair s w + MakeRefPair (two32 - 1) 1) % two64 =
      MakeRefPair (s - 1) (w + 1) := by
  rw [MakeRefPair_eq_of_lt s w hs (by omega),
    MakeRefPair_eq_of_lt (two32 - 1) 1 (by rw [two32_val]; omega)
      (by rw [two32_val]; omega),
    MakeRefPair_eq_of_lt (s - 1) (w + 1) (by omega) hw]
  have key : s * two32 + w + ((two32 - 1) * two32 + 1) =
      (s - 1) * two32 + (w + 1) + two64 := by
    rw [two32_val, two64_val]; omega
  rw [key, Nat.add_mod_right]
  exact Nat.mod_eq_of_lt (pair_lt_two64 (s - 1) (w + 1) (by omega) hw)

theorem refPair_weak_sub (s w : Nat) (h1 : 1 ≤ w) (hs : s < two32)
    (hw : w < two32) :
    (MakeRefPair s w + two64 - MakeRefPair 0 1) % two64 =
      MakeRefPair s (w - 1) := by
  rw [MakeRefPair_eq_of_lt s w hs hw, MakeRefPair_zero_one,
    MakeRefPair_eq_of_lt s (w - 1) hs (by omega)]
  have key : s * two32 + w + two64 - 1 = s * two32 + (w - 1) + two64 := by
    rw [two32_val, two64_val]; omega
  rw [key, Nat.add_mod_right]
  exact Nat.mod_eq_of_lt (pair_lt_two64 s (w - 1) hs (by omega))

theorem pair_eq_01_iff (s w : Nat) (hs : s < two32) (hw : w < two32) :
    MakeRefPair s w = MakeRefPair 0 1 ↔ s = 0 ∧ w = 1 := by
  rw [MakeRefPair_eq_of_lt s w hs hw, MakeRefPair_zero_one, two32_val]
  omega

/-! Behaviour of the individual DualRefCounted operations on a state
whose packed word is in canonical (strong, weak) form. -/

theorem IncrementRefCount_spec (us uw : Nat) (evs : List DrcEvent)
    (hs : us + 1 < two32) (hw : uw < two32) :
    DualRefCounted.IncrementRefCount ⟨MakeRefPair us uw, evs⟩ =
      ⟨MakeRefPair (us + 1) uw, evs⟩ := by
  unfold DualRefCounted.IncrementRefCount
  simp only [DualRefCounted.mk.injEq, and_true]
  exact refPair_add_strong us uw hs hw

theorem IncrementWeakRefCount_spec (us uw : Nat) (evs : List DrcEvent)
    (hs : us < two32) (hw : uw + 1 < two32) :
    DualRefCounted.IncrementWeakRefCount ⟨MakeRefPair us uw, evs⟩ =
      ⟨MakeRefPair us (uw + 1), evs⟩ := by
  unfold DualRefCounted.IncrementWeakRefCount
  simp only [DualRefCounted.mk.injEq, and_true]
  exact refPair_add_weak us uw hs hw

theorem WeakUnref_spec (us uw : Nat) (evs : List DrcEvent)
    (h1 : 1 ≤ uw) (hs : us < two32) (hw : uw < two32) :
    DualRefCounted.WeakUnref ⟨MakeRefPair us uw, evs⟩ =
      ⟨MakeRefPair us (uw - 1),
        if us = 0 ∧ uw = 1 then evs ++ [DrcEvent.destroyed] else evs⟩ := by
  unfold DualRefCounted.WeakUnref
  by_cases h : us = 0 ∧ uw = 1
  · rw [if_pos ((pair_eq_01_iff us uw hs hw).mpr h), if_pos h]
    simp only [DualRefCounted.mk.injEq, and_true]
    exact refPair_weak_sub us uw h1 hs hw
  · rw [if_neg (fun hc => h ((pair_eq_01_iff us uw hs hw).mp hc)), if_neg h]
    simp only [DualRefCounted.mk.injEq, and_true]
    exact refPair_weak_sub us uw h1 hs hw

theorem unrefConvertStep_spec (us uw : Nat) (evs : List DrcEvent)
    (h1 : 1 ≤ us) (hs : us < two32) (hw : uw + 1 < two32) :
    DualRefCounted.unrefConvertStep ⟨MakeRefPair us uw, evs⟩ =
      ⟨MakeRefPair (us - 1) (uw + 1),
        if us = 1 then evs ++ [DrcEvent.orphaned] else evs⟩ := by
  unfold DualRefCounted.unrefConvertStep
  have hget : GetStrongRefs (MakeRefPair us uw) = us :=
    GetStrongRefs_pair us uw hs (by omega)
  by_cases h : us = 1
  · rw [if_pos (by rw [hget]; exact h), if_pos h]
    simp only [DualRefCounted.mk.injEq, and_true]
    exact refPair_unref_step us uw h1 hs hw
  · rw [if_neg (by rw [hget]; exact h), if_neg h]
    simp only [DualRefCounted.mk.injEq, and_true]
    exact refPair_unref_step us uw h1 hs hw

/-! The coupling invariant is preserved by every valid operation. -/

theorem applyOp_ok (op : DrcOp) (us uw : Nat) (st : DualRefCounted)
    (hv : opValid us uw op = true) (hok : stateOk us uw st) :
    stateOk (userAfter us uw op).1 (userAfter us uw op).2 (applyOp st op) := by
  obtain ⟨hus, huw, hrefs, hevs⟩ := hok
  obtain ⟨refs, events⟩ := st
  simp only at hrefs hevs
  subst hrefs hevs
  cases op with
  | ref =>
    simp only [opValid, Bool.and_eq_true, decide_eq_true_eq] at hv
    obtain ⟨hv1, hv2⟩ := hv
    simp only [applyOp, userAfter]
    rw [IncrementRefCount_spec us uw _ hv2 (by omega)]
    refine ⟨hv2, huw, rfl, ?_⟩
    unfold eventsFor
    rw [if_pos hv1, if_pos (by omega)]
  | weakRef =>
    simp only [opValid, Bool.and_eq_true, decide_eq_true_eq] at hv
    obtain ⟨hv1, hv2⟩ := hv
    simp only [applyOp, userAfter]
    rw [IncrementWeakRefCount_spec us uw _ hus (by omega)]
    refine ⟨hus, by omega, rfl, ?_⟩
    unfold eventsFor
    split_ifs <;> first | rfl | omega
  | weakUnref =>
    simp only [opValid, decide_eq_true_eq] at hv
    simp only [applyOp, userAfter]
    rw [WeakUnref_spec us uw _ hv hus (by omega)]
    refine ⟨hus, by omega, rfl, ?_⟩
    by_cases hc : us = 0 ∧ uw = 1
    · rw [if_pos hc]
      obtain ⟨h0, h1⟩ := hc
      subst h0 h1
      rfl
    · rw [if_neg hc]
      unfold eventsFor
      split_ifs <;> first | rfl | omega
  | unref =>
    simp only [opValid, decide_eq_true_eq] at hv
    simp only [applyOp, userAfter, DualRefCounted.Unref]
    rw [unrefConvertStep_spec us uw _ hv hus huw]
    rw [WeakUnref_spec (us - 1) (uw + 1) _ (by omega) (by omega) huw]
    refine ⟨by omega, huw, by rw [Nat.add_sub_cancel], ?_⟩
    by_cases h1 : us = 1
    · rw [if_pos h1]
      by_cases h0 : uw = 0
      · rw [if_pos (by omega : us - 1 = 0 ∧ uw + 1 = 1)]
        subst h1
        subst h0
        rfl
      · rw [if_neg (by omega : ¬(us - 1 = 0 ∧ uw + 1 = 1))]
        subst h1
        unfold eventsFor
        split_ifs <;> first | rfl | omega
    · rw [if_neg h1, if_neg (by omega : ¬(us - 1 = 0 ∧ uw + 1 = 1))]
      unfold eventsFor
      split_ifs <;> first | rfl | omega

/-- The invariant carried through a whole valid sequence. -/
theorem runOps_ok (ops : List DrcOp) :
    ∀ (us uw : Nat) (st : DualRefCounted),
      validOps us uw ops = true → stateOk us uw st →
      stateOk (userFinal us uw ops).1 (userFinal us uw ops).2 (runOps st ops) := by
  induction ops with
  | nil =>
    intro us uw st _ hok
    exact hok
  | cons op rest ih =>
    intro us uw st hv hok
    simp only [validOps, Bool.and_eq_true] at hv
    simp only [userFinal, runOps]
    exact ih _ _ _ hv.2 (applyOp_ok op us uw st hv.1 hok)

/-- C1: for every finite sequence of Ref, Unref, WeakRef and WeakUnref
operations on a DualRefCounted object created with strong = 1 and
weak = 0 — valid in that each operation's debug-checked precondition
holds and the uint32_t counters never wrap — in which every increment is
matched by a corresponding decrement so that the client-held counts end
at (0, 0), the event log is exactly [Orphaned, destroyed]: the destroy
behavior (unref_behavior_) runs exactly once, Orphaned() runs exactly
once, and Orphaned() happens before destruction. -/
theorem DualRefCounted_refcount_conservation (ops : List DrcOp)
    (hvalid : validOps 1 0 ops = true)
    (hmatched : userFinal 1 0 ops = (0, 0)) :
    (runOps (mkDualRefCounted 1) ops).events =
      [DrcEvent.orphaned, DrcEvent.destroyed] := by
  have h0 : stateOk 1 0 (mkDualRefCounted 1) := by
    refine ⟨by rw [two32_val]; omega, by rw [two32_val]; omega, ?_, rfl⟩
    show MakeRefPair (u32OfInt 1) 0 = MakeRefPair 1 0
    rw [show u32OfInt 1 = 1 from by decide]
  have h := runOps_ok ops 1 0 (mkDualRefCounted 1) hvalid h0
  rw [hmatched] at h
  exact h.2.2.2

/-- Witness for C1: the sequence Ref, WeakRef, Unref, Unref, WeakUnref is
valid, balances the counts, and produces exactly [orphaned, destroyed]. -/
theorem DualRefCounted_refcount_conservation_witness :
    validOps 1 0
        [DrcOp.ref, DrcOp.weakRef, DrcOp.unref, DrcOp.unref, DrcOp.weakUnref] =
      true ∧
    userFinal 1 0
        [DrcOp.ref, DrcOp.weakRef, DrcOp.unref, DrcOp.unref, DrcOp.weakUnref] =
      (0, 0) ∧
    (runOps (mkDualRefCounted 1)
        [DrcOp.ref, DrcOp.weakRef, DrcOp.unref, DrcOp.unref,
          DrcOp.weakUnref]).events =
      [DrcEvent.orphaned, DrcEvent.destroyed] :=
  ⟨by decide, by decide,
    DualRefCounted_refcount_conservation _ (by decide) (by decide)⟩

/-- C2: Unref() on an object with strong count s ≥ 1 performs a single
fused update that decrements the strong count by one and increments the
weak count by one, calls Orphaned() iff the strong count observed before
the update was exactly 1, and then performs exactly one WeakUnref(); the
total strong + weak count is unchanged by the fused update, i.e. while
Orphaned() runs. -/
theorem DualRefCounted_Unref_fused (s w : Nat) (evs : List DrcEvent)
    (h1 : 1 ≤ s) (hs : s < two32) (hw : w + 1 < two32) :
    GetStrongRefs
        (DualRefCounted.unrefConvertStep ⟨MakeRefPair s w, evs⟩).refs =
      s - 1 ∧
    GetWeakRefs
        (DualRefCounted.unrefConvertStep ⟨MakeRefPair s w, evs⟩).refs =
      w + 1 ∧
    ((DualRefCounted.unrefConvertStep ⟨MakeRefPair s w, evs⟩).events =
        evs ++ [DrcEvent.orphaned] ↔ s = 1) ∧
    (¬s = 1 →
      (DualRefCounted.unrefConvertStep ⟨MakeRefPair s w, evs⟩).events = evs) ∧
    GetStrongRefs
          (DualRefCounted.unrefConvertStep ⟨MakeRefPair s w, evs⟩).refs +
        GetWeakRefs
          (DualRefCounted.unrefConvertStep ⟨MakeRefPair s w, evs⟩).refs =
      s + w ∧
    DualRefCounted.Unref ⟨MakeRefPair s w, evs⟩ =
      DualRefCounted.WeakUnref
        (DualRefCounted.unrefConvertStep ⟨MakeRefPair s w, evs⟩) := by
  rw [unrefConvertStep_spec s w evs h1 hs hw]
  have hstrong : GetStrongRefs (MakeRefPair (s - 1) (w + 1)) = s - 1 :=
    GetStrongRefs_pair _ _ (by omega) hw
  have hweak : GetWeakRefs (MakeRefPair (s - 1) (w + 1)) = w + 1 :=
    GetWeakRefs_pair _ _ (by omega) hw
  refine ⟨hstrong, hweak, ?_, ?_, ?_, ?_⟩
  · by_cases h : s = 1 <;> simp [h]
  · intro h
    simp [h]
  · show MakeRefPair (s - 1) (w + 1) / two32 % two32 +
      MakeRefPair (s - 1) (w + 1) % two32 = s + w
    have h2 := hstrong
    have h3 := hweak
    unfold GetStrongRefs at h2
    unfold GetWeakRefs at h3
    omega
  · unfold DualRefCounted.Unref
    rw [unrefConvertStep_spec s w evs h1 hs hw]

/-- Witness for C2 at (s, w) = (1, 0): the fused step orphans and keeps
the total count at 1. -/
theorem DualRefCounted_Unref_fused_witness :
    GetStrongRefs
        (DualRefCounted.unrefConvertStep ⟨MakeRefPair 1 0, []⟩).refs = 0 ∧
    GetWeakRefs
        (DualRefCounted.unrefConvertStep ⟨MakeRefPair 1 0, []⟩).refs = 1 ∧
    ((DualRefCounted.unrefConvertStep ⟨MakeRefPair 1 0, []⟩).events =
        [] ++ [DrcEvent.orphaned] ↔ (1 : Nat) = 1) ∧
    (¬(1 : Nat) = 1 →
      (DualRefCounted.unrefConvertStep ⟨MakeRefPair 1 0, []⟩).events = []) ∧
    GetStrongRefs
          (DualRefCounted.unrefConvertStep ⟨MakeRefPair 1 0, []⟩).refs +
        GetWeakRefs
          (DualRefCounted.unrefConvertStep ⟨MakeRefPair 1 0, []⟩).refs = 1 ∧
    DualRefCounted.Unref ⟨MakeRefPair 1 0, []⟩ =
      DualRefCounted.WeakUnref
        (DualRefCounted.unrefConvertStep ⟨MakeRefPair 1 0, []⟩) :=
  DualRefCounted_Unref_fused 1 0 [] (by decide) (by decide) (by decide)

/-- C3: WeakUnref() on an object with weak count w ≥ 1 decrements the
weak count by one, leaves the strong count unchanged, and invokes the
destroy behavior iff the ref-pair observed immediately before the
decrement was (strong = 0, weak = 1) — destruction happens only via the
operation that takes both counts to zero. -/
theorem DualRefCounted_WeakUnref_destroy (s w : Nat) (evs : List DrcEvent)
    (hs : s < two32) (h1 : 1 ≤ w) (hw : w < two32) :
    GetWeakRefs (DualRefCounted.WeakUnref ⟨MakeRefPair s w, evs⟩).refs =
      w - 1 ∧
    GetStrongRefs (DualRefCounted.WeakUnref ⟨MakeRefPair s w, evs⟩).refs =
      s ∧
    ((DualRefCounted.WeakUnref ⟨MakeRefPair s w, evs⟩).events =
        evs ++ [DrcEvent.destroyed] ↔ (s = 0 ∧ w = 1)) ∧
    (¬(s = 0 ∧ w = 1) →
      (DualRefCounted.WeakUnref ⟨MakeRefPair s w, evs⟩).events = evs) := by
  rw [WeakUnref_spec s w evs h1 hs hw]
  refine ⟨GetWeakRefs_pair _ _ hs (by omega),
    GetStrongRefs_pair _ _ hs (by omega), ?_, ?_⟩
  · by_cases h : s = 0 ∧ w = 1 <;> simp [h]
  · intro h
    simp [h]

/-- Witness for C3 at (s, w) = (0, 1): the final WeakUnref destroys. -/
theorem DualRefCounted_WeakUnref_destroy_witness :
    GetWeakRefs (DualRefCounted.WeakUnref ⟨MakeRefPair 0 1, []⟩).refs = 0 ∧
    GetStrongRefs (DualRefCounted.WeakUnref ⟨MakeRefPair 0 1, []⟩).refs = 0 ∧
    ((DualRefCounted.WeakUnref ⟨MakeRefPair 0 1, []⟩).events =
        [] ++ [DrcEvent.destroyed] ↔ ((0 : Nat) = 0 ∧ (1 : Nat) = 1)) ∧
    (¬((0 : Nat) = 0 ∧ (1 : Nat) = 1) →
      (DualRefCounted.WeakUnref ⟨MakeRefPair 0 1, []⟩).events = []) :=
  DualRefCounted_WeakUnref_destroy 0 1 [] (by decide) (by decide) (by decide)

/-- C4: RefIfNonZero() yields a handle iff the strong count is positive
when its compare-exchange succeeds (incrementing the strong count by one
and leaving the weak count unchanged), and yields nothing, leaving the
ref-pair unchanged, when the strong count is zero. -/
theorem DualRefCounted_RefIfNonZero_spec (s w : Nat) (evs : List DrcEvent)
    (hs : s + 1 < two32) (hw : w < two32) :
    ((DualRefCounted.RefIfNonZero ⟨MakeRefPair s w, evs⟩).1.isSome = true ↔
      0 < s) ∧
    (0 < s →
      (DualRefCounted.RefIfNonZero ⟨MakeRefPair s w, evs⟩).2 =
        ⟨MakeRefPair (s + 1) w, evs⟩) ∧
    (s = 0 →
      (DualRefCounted.RefIfNonZero ⟨MakeRefPair s w, evs⟩).1 = none ∧
      (DualRefCounted.RefIfNonZero ⟨MakeRefPair s w, evs⟩).2 =
        ⟨MakeRefPair s w, evs⟩) := by
  unfold DualRefCounted.RefIfNonZero
  have hget : GetStrongRefs (MakeRefPair s w) = s :=
    GetStrongRefs_pair s w (by omega) hw
  by_cases h : s = 0
  · rw [if_pos (by rw [hget]; exact h)]
    subst h
    exact ⟨by simp, fun hc => absurd hc (by omega), fun _ => ⟨rfl, rfl⟩⟩
  · rw [if_neg (by rw [hget]; exact h)]
    refine ⟨by simp; omega, fun _ => ?_, fun hc => absurd hc h⟩
    simp only [DualRefCounted.mk.injEq, and_true]
    exact refPair_add_strong s w hs hw

/-- Witness for C4 at (s, w) = (1, 2): the handle is produced and the
pair becomes (2, 2). -/
theorem DualRefCounted_RefIfNonZero_spec_witness :
    ((DualRefCounted.RefIfNonZero ⟨MakeRefPair 1 2, []⟩).1.isSome = true ↔
      (0 : Nat) < 1) ∧
    ((0 : Nat) < 1 →
      (DualRefCounted.RefIfNonZero ⟨MakeRefPair 1 2, []⟩).2 =
        ⟨MakeRefPair 2 2, []⟩) ∧
    ((1 : Nat) = 0 →
      (DualRefCounted.RefIfNonZero ⟨MakeRefPair 1 2, []⟩).1 = none ∧
      (DualRefCounted.RefIfNonZero ⟨MakeRefPair 1 2, []⟩).2 =
        ⟨MakeRefPair 1 2, []⟩) :=
  DualRefCounted_RefIfNonZero_spec 1 2 [] (by decide) (by decide)

/-- C9: for 32-bit values s and w, GetStrongRefs(MakeRefPair(s, w)) = s
and GetWeakRefs(MakeRefPair(s, w)) = w; and whenever s ≥ 1 and
w < 2^32 - 1, adding the single 64-bit constant MakeRefPair(-1, 1)
(whose uint32_t first argument is 2^32 - 1) to MakeRefPair(s, w) modulo
2^64 yields exactly MakeRefPair(s - 1, w + 1) — the fused Unref update
never carries or borrows across the strong/weak boundary. -/
theorem MakeRefPair_roundtrip_and_unref_delta :
    (∀ s w : Nat, s < two32 → w < two32 →
      GetStrongRefs (MakeRefPair s w) = s ∧
        GetWeakRefs (MakeRefPair s w) = w) ∧
    (∀ s w : Nat, 1 ≤ s → s < two32 → w + 1 < two32 →
      (MakeRefPair s w + MakeRefPair (two32 - 1) 1) % two64 =
        MakeRefPair (s - 1) (w + 1)) :=
  ⟨fun s w hs hw => ⟨GetStrongRefs_pair s w hs hw, GetWeakRefs_pair s w hs hw⟩,
    fun s w h1 hs hw => refPair_unref_step s w h1 hs hw⟩

/-- Witness for C9 at (s, w) = (3, 5). -/
theorem MakeRefPair_roundtrip_and_unref_delta_witness :
    (GetStrongRefs (MakeRefPair 3 5) = 3 ∧ GetWeakRefs (MakeRefPair 3 5) = 5) ∧
    (MakeRefPair 3 5 + MakeRefPair (two32 - 1) 1) % two64 = MakeRefPair 2 6 :=
  ⟨MakeRefPair_roundtrip_and_unref_delta.1 3 5 (by decide) (by decide),
    MakeRefPair_roundtrip_and_unref_delta.2 3 5 (by decide) (by decide)
      (by decide)⟩

/-- Auxiliary: the int32_t → uint32_t conversion lands below 2^32. -/
theorem u32OfInt_lt (n : Int) : u32OfInt n < two32 := by
  unfold u32OfInt
  have hpos : (0 : Int) < (two32 : Int) := by
    have h : (0 : Nat) < two32 := by rw [two32_val]; omega
    exact_mod_cast h
  have h1 := Int.emod_lt_of_pos n hpos
  have h2 := Int.emod_nonneg n (ne_of_gt hpos)
  rw [two32_val] at h1 h2 ⊢
  omega

/-- C10: the constructor initializes the packed ref-pair to
(strong = initial_refcount, weak = 0) for every value of the
initial_refcount parameter; the weak count is always zero at
construction, and 1 is only the default argument. -/
theorem DualRefCounted_ctor_spec (n : Int) :
    (mkDualRefCounted n).refs = MakeRefPair (u32OfInt n) 0 ∧
    GetStrongRefs (mkDualRefCounted n).refs = u32OfInt n ∧
    GetWeakRefs (mkDualRefCounted n).refs = 0 ∧
    (mkDualRefCounted n).events = [] ∧
    mkDualRefCountedDefault = mkDualRefCounted 1 := by
  refine ⟨rfl, ?_, ?_, rfl, rfl⟩
  · exact GetStrongRefs_pair _ 0 (u32OfInt_lt n) (by rw [two32_val]; omega)
  · exact GetWeakRefs_pair _ 0 (u32OfInt_lt n) (by rw [two32_val]; omega)

/-- C5 counterexample: the claim asserts that after the Party is
orphaned a previously captured non-owning waker reports is_unwakeable()
= true even before any Wakeup() — contradicted at this concrete input
(an orphaned Party and an armed waker), matching the cited test
PartyTest.CanWakeupWithNonOwningWakerAfterOrphaning, which expects
is_unwakeable() to be false right after orphaning. -/
theorem Waker_unwakeable_counterexample :
    ¬(orphanedParty.isOrphaned = true →
      capturedWaker.is_unwakeable = true) := by
  decide

/-- C5 (amended): is_unwakeable() reports whether the waker still holds
a wakeup target, so for an armed waker it returns false even after the
Party has been orphaned; calling Wakeup() on it then has no effect on
the Party and leaves the waker unwakeable. -/
theorem Waker_unwakeable_after_wakeup (p : PartyModel) (w : Waker)
    (slot gen : Nat) (ht : w.target = some (slot, gen))
    (ho : p.isOrphaned = true) :
    w.is_unwakeable = false ∧
    (w.wakeup p).1.is_unwakeable = true ∧
    (w.wakeup p).2 = p := by
  simp [Waker.is_unwakeable, Waker.wakeup, ht, ho]

/-- Witness for C5's amended theorem at the concrete orphaned Party and
captured waker. -/
theorem Waker_unwakeable_after_wakeup_witness :
    capturedWaker.is_unwakeable = false ∧
    (capturedWaker.wakeup orphanedParty).1.is_unwakeable = true ∧
    (capturedWaker.wakeup orphanedParty).2 = orphanedParty :=
  Waker_unwakeable_after_wakeup orphanedParty capturedWaker 0 0 rfl rfl

/-- C8: a successful AddParticipantsAndRef(n, assign_fn) with n ≥ 1
hands assign_fn exactly n slot indices that are strictly increasing,
each naming a previously free slot in 0 .. kMaxParticipants - 1. -/
theorem AddParticipantsAndRef_slots_increasing (st : PartySync.SyncState)
    (n : Nat) (idxs : List Nat) (st2 : PartySync.SyncState)
    (_hn : 1 ≤ n)
    (h : PartySync.AddParticipantsAndRef st n = some (idxs, st2)) :
    idxs.length = n ∧ List.Pairwise (· < ·) idxs ∧
      ∀ i ∈ idxs, i < PartySync.kMaxParticipants ∧
        st.allocated.getD i true = false := by
  unfold PartySync.AddParticipantsAndRef at h
  by_cases hle : n ≤ (PartySync.freeSlots st.allocated).length
  · rw [if_pos hle] at h
    simp only [Option.some.injEq, Prod.mk.injEq] at h
    obtain ⟨hidx, -⟩ := h
    subst hidx
    have hsub : List.Sublist ((PartySync.freeSlots st.allocated).take n)
        (PartySync.freeSlots st.allocated) :=
      List.take_sublist n (PartySync.freeSlots st.allocated)
    refine ⟨by rw [List.length_take]; omega, ?_, ?_⟩
    · have hpw : (PartySync.freeSlots st.allocated).Pairwise (· < ·) :=
        (List.pairwise_lt_range PartySync.kMaxParticipants).sublist
          (List.filter_sublist (List.range PartySync.kMaxParticipants))
      exact hpw.sublist hsub
    · intro i hi
      have hfree : i ∈ PartySync.freeSlots st.allocated := hsub.subset hi
      unfold PartySync.freeSlots at hfree
      rw [List.mem_filter, List.mem_range] at hfree
      refine ⟨hfree.1, ?_⟩
      have hb := hfree.2
      simp only [Bool.not_eq_eq_eq_not, Bool.not_true] at hb
      exact hb
  · rw [if_neg hle] at h
    exact absurd h (by simp)

/-- Witness for C8: two slots reserved on an empty sync are [0, 1]. -/
theorem AddParticipantsAndRef_slots_increasing_witness :
    ([0, 1] : List Nat).length = 2 ∧
    List.Pairwise (· < ·) ([0, 1] : List Nat) ∧
    ∀ i ∈ ([0, 1] : List Nat), i < PartySync.kMaxParticipants ∧
      PartySync.emptySync.allocated.getD i true = false :=
  AddParticipantsAndRef_slots_increasing PartySync.emptySync 2 [0, 1]
    PartySync.syncAfterTwo (by decide) (by decide)

/-- If no element of l1 is a Q-event and no element of l2 is a P-event,
then in l1 ++ l2 every P-event precedes every Q-event. -/
theorem eventsPrecede_append (P Q : CallSpine.HandlerEvent → Bool)
    (l1 l2 : List CallSpine.HandlerEvent)
    (hQ : ∀ x ∈ l1, Q x = false) (hP : ∀ x ∈ l2, P x = false) :
    CallSpine.eventsPrecede P Q (l1 ++ l2) := by
  intro i j hi hj hPi hQj
  have hil : i < l1.length := by
    by_contra hcon
    push_neg at hcon
    have hi2 := hi
    rw [List.length_append] at hi2
    have hlen : i - l1.length < l2.length := by omega
    have hmem : (l1 ++ l2).get ⟨i, hi⟩ ∈ l2 := by
      rw [@List.get_append_right _ i l1 l2 hcon hi hlen]
      exact List.get_mem _ _ _
    rw [hP _ hmem] at hPi
    exact Bool.false_ne_true hPi
  have hjl : ¬j < l1.length := by
    intro hcon
    have hmem : (l1 ++ l2).get ⟨j, hj⟩ ∈ l1 := by
      rw [List.get_append j hcon]
      exact List.get_mem _ _ _
    rw [hQ _ hmem] at hQj
    exact Bool.false_ne_true hQj
  omega

/-- No message-pump event is an observer invocation. -/
theorem filter_observe_map (msgs : List Nat) :
    (msgs.map CallSpine.HandlerEvent.pushMessage).filter
      CallSpine.isObserveTrailing = [] := by
  induction msgs with
  | nil => rfl
  | cons m rest ih =>
    simp [List.filter_cons, CallSpine.isObserveTrailing, ih]

/-- The empty prefix satisfies any all-false predicate condition. -/
theorem nilEvents_false (P : CallSpine.HandlerEvent → Bool) :
    ∀ x ∈ ([] : List CallSpine.HandlerEvent), P x = false :=
  fun x hx => absurd hx (List.not_mem_nil x)

/-- Neither trailing event is the initial-metadata push. -/
theorem tailPair_not_initial (tmd : Nat) :
    ∀ x ∈ [CallSpine.HandlerEvent.observeTrailingMetadata tmd,
        CallSpine.HandlerEvent.pushServerTrailingMetadata tmd],
      CallSpine.isPushInitialMetadata x = false := by
  intro x hx
  simp only [List.mem_cons, List.not_mem_nil, or_false] at hx
  rcases hx with rfl | rfl <;> rfl

/-- Neither trailing event is a message push. -/
theorem tailPair_not_message (tmd : Nat) :
    ∀ x ∈ [CallSpine.HandlerEvent.observeTrailingMetadata tmd,
        CallSpine.HandlerEvent.pushServerTrailingMetadata tmd],
      CallSpine.isPushMessage x = false := by
  intro x hx
  simp only [List.mem_cons, List.not_mem_nil, or_false] at hx
  rcases hx with rfl | rfl <;> rfl

/-- No pumped message event is the initial-metadata push. -/
theorem pumpMap_not_initial (msgs : List Nat) :
    ∀ x ∈ msgs.map CallSpine.HandlerEvent.pushMessage,
      CallSpine.isPushInitialMetadata x = false := by
  intro x hx
  obtain ⟨m, -, rfl⟩ := List.mem_map.mp hx
  rfl

/-- No pumped message event is the trailing-metadata push. -/
theorem pumpMap_not_trailing (msgs : List Nat) :
    ∀ x ∈ msgs.map CallSpine.HandlerEvent.pushMessage,
      CallSpine.isPushTrailing x = false := by
  intro x hx
  obtain ⟨m, -, rfl⟩ := List.mem_map.mp hx
  rfl

/-- C6: in ForwardCall's initiator-to-handler direction, if the pull of
server-initial-metadata yields a value then that metadata is pushed to
the handler before any server message, every server message is pushed
before the server-trailing-metadata, and if the pull yields an empty
optional then no server messages are pumped while the trailing metadata
is still forwarded to the handler. -/
theorem ForwardCall_initiator_ordering (src : CallSpine.InitiatorSource) :
    CallSpine.eventsPrecede CallSpine.isPushInitialMetadata
        CallSpine.isPushMessage (CallSpine.forwardCallInitiatorEvents src) ∧
    CallSpine.eventsPrecede CallSpine.isPushMessage CallSpine.isPushTrailing
        (CallSpine.forwardCallInitiatorEvents src) ∧
    (src.serverInitialMetadata = CallSpine.Pulled.ok none →
      (∀ e ∈ CallSpine.forwardCallInitiatorEvents src,
        CallSpine.isPushMessage e = false) ∧
      CallSpine.HandlerEvent.pushServerTrailingMetadata src.trailingMetadata ∈
        CallSpine.forwardCallInitiatorEvents src) := by
  obtain ⟨smd, msgs, closed, tmd⟩ := src
  cases smd with
  | failed =>
    refine ⟨?_, ?_, ?_⟩
    · exact eventsPrecede_append _ _ [] _ (nilEvents_false _)
        (tailPair_not_initial tmd)
    · exact eventsPrecede_append _ _ [] _ (nilEvents_false _)
        (tailPair_not_message tmd)
    · intro hc
      cases hc
  | ok v =>
    cases v with
    | none =>
      refine ⟨?_, ?_, ?_⟩
      · exact eventsPrecede_append _ _ [] _ (nilEvents_false _)
          (tailPair_not_initial tmd)
      · exact eventsPrecede_append _ _ [] _ (nilEvents_false _)
          (tailPair_not_message tmd)
      · intro _
        refine ⟨tailPair_not_message tmd, ?_⟩
        simp [CallSpine.forwardCallInitiatorEvents]
    | some u =>
      refine ⟨?_, ?_, ?_⟩
      · refine eventsPrecede_append _ _
          [CallSpine.HandlerEvent.pushServerInitialMetadata] _ ?_ ?_
        · intro x hx
          rw [List.mem_singleton] at hx
          subst hx
          rfl
        · intro x hx
          rcases List.mem_append.mp hx with h | h
          · exact pumpMap_not_initial msgs x h
          · exact tailPair_not_initial tmd x h
      · refine eventsPrecede_append _ _
          (CallSpine.HandlerEvent.pushServerInitialMetadata ::
            msgs.map CallSpine.HandlerEvent.pushMessage) _ ?_
          (tailPair_not_message tmd)
        intro x hx
        rcases List.mem_cons.mp hx with rfl | h
        · rfl
        · exact pumpMap_not_trailing msgs x h
      · intro hc
        simp at hc

/-- Witness for C6 on the happy-path source: the initial-metadata push
(index 0) precedes the message push (index 1), which precedes the
trailing push (index 3). -/
theorem ForwardCall_initiator_ordering_witness :
    (0 : Nat) < 1 ∧ (1 : Nat) < 3 :=
  ⟨(ForwardCall_initiator_ordering CallSpine.sampleSource).1 0 1 (by decide)
      (by decide) (by decide) (by decide),
    (ForwardCall_initiator_ordering CallSpine.sampleSource).2.1 1 3 (by decide)
      (by decide) (by decide) (by decide)⟩

/-- C7: on every path through the initiator-side pump — initial metadata
present, absent, or the guarded TrySeq failing (cancellation) — the
user-supplied on_server_trailing_metadata_from_initiator observer is
invoked exactly once, with exactly the final trailing metadata, and this
invocation precedes the push of the trailing metadata to the handler
(which does occur). -/
theorem ForwardCall_trailing_observer_once (src : CallSpine.InitiatorSource) :
    (CallSpine.forwardCallInitiatorEvents src).filter
        CallSpine.isObserveTrailing =
      [CallSpine.HandlerEvent.observeTrailingMetadata src.trailingMetadata] ∧
    CallSpine.HandlerEvent.pushServerTrailingMetadata src.trailingMetadata ∈
      CallSpine.forwardCallInitiatorEvents src ∧
    CallSpine.eventsPrecede CallSpine.isObserveTrailing
      CallSpine.isPushTrailing (CallSpine.forwardCallInitiatorEvents src) := by
  obtain ⟨smd, msgs, closed, tmd⟩ := src
  have horder : ∀ pre : List CallSpine.HandlerEvent,
      (∀ x ∈ pre, CallSpine.isPushTrailing x = false) →
      CallSpine.eventsPrecede CallSpine.isObserveTrailing
        CallSpine.isPushTrailing
        (pre ++ [CallSpine.HandlerEvent.observeTrailingMetadata tmd,
          CallSpine.HandlerEvent.pushServerTrailingMetadata tmd]) := by
    intro pre hpre
    have he : pre ++ [CallSpine.HandlerEvent.observeTrailingMetadata tmd,
        CallSpine.HandlerEvent.pushServerTrailingMetadata tmd] =
        (pre ++ [CallSpine.HandlerEvent.observeTrailingMetadata tmd]) ++
          [CallSpine.HandlerEvent.pushServerTrailingMetadata tmd] := by
      rw [List.append_assoc]
      rfl
    rw [he]
    refine eventsPrecede_append _ _ _ _ ?_ ?_
    · intro x hx
      rcases List.mem_append.mp hx with h | h
      · exact hpre x h
      · rw [List.mem_singleton] at h
        subst h
        rfl
    · intro x hx
      rw [List.mem_singleton] at hx
      subst hx
      rfl
  cases smd with
  | failed =>
    refine ⟨rfl, by simp [CallSpine.forwardCallInitiatorEvents], ?_⟩
    exact horder [] (nilEvents_false _)
  | ok v =>
    cases v with
    | none =>
      refine ⟨rfl, by simp [CallSpine.forwardCallInitiatorEvents], ?_⟩
      exact horder [] (nilEvents_false _)
    | some u =>
      refine ⟨?_, by simp [CallSpine.forwardCallInitiatorEvents], ?_⟩
      · show ((CallSpine.HandlerEvent.pushServerInitialMetadata ::
            msgs.map CallSpine.HandlerEvent.pushMessage) ++
            [CallSpine.HandlerEvent.observeTrailingMetadata tmd,
              CallSpine.HandlerEvent.pushServerTrailingMetadata tmd]).filter
            CallSpine.isObserveTrailing =
          [CallSpine.HandlerEvent.observeTrailingMetadata tmd]
        rw [List.cons_append, List.filter_cons, List.filter_append,
          filter_observe_map msgs]
        rfl
      · refine horder
          (CallSpine.HandlerEvent.pushServerInitialMetadata ::
            msgs.map CallSpine.HandlerEvent.pushMessage) ?_
        intro x hx
        rcases List.mem_cons.mp hx with rfl | h
        · rfl
        · exact pumpMap_not_trailing msgs x h

/-- Witness for C7 on the happy-path source: the observer fires exactly
once with metadata 9, the trailing push occurs, and the observer (index
2) precedes the trailing push (index 3). -/
theorem ForwardCall_trailing_observer_once_witness :
    (CallSpine.forwardCallInitiatorEvents CallSpine.sampleSource).filter
        CallSpine.isObserveTrailing =
      [CallSpine.HandlerEvent.observeTrailingMetadata 9] ∧
    CallSpine.HandlerEvent.pushServerTrailingMetadata 9 ∈
      CallSpine.forwardCallInitiatorEvents CallSpine.sampleSource ∧
    (2 : Nat) < 3 :=
  ⟨(ForwardCall_trailing_observer_once CallSpine.sampleSource).1,
    (ForwardCall_trailing_observer_once CallSpine.sampleSource).2.1,
    (ForwardCall_trailing_observer_once CallSpine.sampleSource).2.2 2 3
      (by decide) (by decide) (by decide) (by decide)⟩

end GrpcVerify
